import Mathlib

/-!
Shallow embedding of the job-matching backend (`job_scraping_app`).

Python strings are modelled as lists of Unicode code points (`PyStr := List Nat`),
restricted to the character operations the code actually performs: `str.lower`
is modelled on the ASCII letters (the data the application handles), `str.split`
uses the Python whitespace code points, and `string.punctuation` is the fixed
ASCII punctuation class used by `extract_keywords_from_text`.

Database tables (SQLAlchemy models) are modelled as lists of rows plus a
next-id counter; `datetime.utcnow()` is modelled as an explicit `now : Nat`
parameter.  Python `set` values are modelled as deduplicated lists
(`List.dedup`), whose membership and cardinality agree with the corresponding
`Finset`.
-/

/-- A Python string: list of Unicode code points. -/
abbrev PyStr := List Nat

/-- Code points of a Lean string literal, for writing concrete Python strings. -/
def pystr (s : String) : PyStr := s.toList.map Char.toNat

/-- `string.punctuation` membership: the 32 ASCII punctuation characters that
`extract_keywords_from_text` replaces by spaces. -/
def isPunct (n : Nat) : Bool :=
  decide ((33 ≤ n ∧ n ≤ 47) ∨ (58 ≤ n ∧ n ≤ 64) ∨ (91 ≤ n ∧ n ≤ 96) ∨ (123 ≤ n ∧ n ≤ 126))

/-- Python `str.split()` whitespace code points (`str.isspace`). -/
def isSpaceN (n : Nat) : Bool :=
  decide ((9 ≤ n ∧ n ≤ 13) ∨ (28 ≤ n ∧ n ≤ 31) ∨ n = 32 ∨ n = 133 ∨ n = 160 ∨
    n = 5760 ∨ (8192 ≤ n ∧ n ≤ 8202) ∨ n = 8232 ∨ n = 8233 ∨ n = 8239 ∨
    n = 8287 ∨ n = 12288)

/-- Python `str.lower` on one code point (ASCII fragment). -/
def pyLower (n : Nat) : Nat := if 65 ≤ n ∧ n ≤ 90 then n + 32 else n

/-- Python `str.strip()`: drop whitespace from both ends. -/
def pyStrip (s : PyStr) : PyStr :=
  ((s.dropWhile isSpaceN).reverse.dropWhile isSpaceN).reverse

/-- Helper for `str.split()`: accumulates the current word (reversed) in `acc`. -/
def splitWSAux : List Nat → List Nat → List PyStr
  | [], acc => if acc.isEmpty then [] else [acc.reverse]
  | c :: rest, acc =>
    if isSpaceN c then
      if acc.isEmpty then splitWSAux rest [] else acc.reverse :: splitWSAux rest []
    else splitWSAux rest (c :: acc)

/-- Python `str.split()` (no argument): split on whitespace runs, no empty parts. -/
def splitWS (s : PyStr) : List PyStr := splitWSAux s []

/-- Helper for `str.split(',')`. -/
def splitOnCommaAux : List Nat → List Nat → List PyStr
  | [], acc => [acc.reverse]
  | c :: rest, acc =>
    if c == 44 then acc.reverse :: splitOnCommaAux rest []
    else splitOnCommaAux rest (c :: acc)

/-- Python `str.split(',')`: split at every comma, keeping empty parts. -/
def splitOnComma (s : PyStr) : List PyStr := splitOnCommaAux s []

/-- Python substring test `needle in hay` on strings. -/
def strIn (needle : PyStr) : PyStr → Bool
  | [] => needle.isEmpty
  | c :: t => ((c :: t).take needle.length == needle) || strIn needle t

/-- `DEFAULT_STOP_WORDS` from `app/services/ai_matcher.py`. -/
def DEFAULT_STOP_WORDS : List PyStr :=
  ([ "a", "an", "the", "is", "are", "was", "were", "be", "been", "being",
    "have", "has", "had", "do", "does", "did", "will", "would", "should",
    "can", "could", "may", "might", "must", "and", "but", "or", "nor",
    "for", "so", "yet", "in", "on", "at", "by", "from", "to", "with",
    "about", "above", "after", "again", "against", "all", "am", "as",
    "because", "before", "below", "between", "both", "during", "each",
    "few", "further", "here", "how", "i", "if", "into", "it", "its", "itself",
    "just", "me", "more", "most", "my", "myself", "no", "not", "now", "of",
    "off", "once", "only", "other", "our", "ours", "ourselves", "out", "over",
    "own", "same", "she", "he", "they", "them", "their", "theirs", "themselves",
    "then", "there", "these", "this", "those", "through", "too", "under", "until",
    "up", "very", "we", "what", "when", "where", "which", "while", "who", "whom",
    "why", "you", "your", "yours", "yourself", "yourselves", "cv", "resume",
    "job", "role", "opportunity", "company", "experience", "work", "skills",
    "required", "responsibilities", "duties", "salary", "location", "contract",
    "permanent", "temporary", "full-time", "part-time", "london", "uk", "remote"
    ] : List String).map pystr

/-- `extract_keywords_from_text` from `app/services/ai_matcher.py`: lowercase,
replace punctuation by spaces, split on whitespace, keep words of length ≥ 3
that are not stop words; the Python `set` is modelled by `List.dedup`. -/
def extract_keywords_from_text (text : PyStr) : List PyStr :=
  if text.isEmpty then []
  else
    let lowered := text.map pyLower
    let depunct := lowered.map (fun c => if isPunct c then 32 else c)
    let words := splitWS depunct
    (words.filter (fun w =>
      !(decide (w ∈ DEFAULT_STOP_WORDS)) && decide (3 ≤ w.length))).dedup

/-! ### Python-set operations on deduplicated lists -/

/-- Python `set.union` on the deduplicated-list model. -/
def pySetUnion (a b : List PyStr) : List PyStr := (a ++ b).dedup

/-- Python `set.intersection` on the deduplicated-list model (the left operand
is a deduplicated list wherever the code builds one). -/
def pySetInter (a b : List PyStr) : List PyStr :=
  a.filter (fun w => decide (w ∈ b))

/-- Python `", ".join` on a list of strings. -/
def joinCommaSpace : List PyStr → PyStr
  | [] => []
  | [w] => w
  | w :: v :: ws => w ++ pystr (", ") ++ joinCommaSpace (v :: ws)

/-! ### Data model: SQLAlchemy rows and tables

Each table is a list of rows plus the next autoincrement id; `DateTime`
columns are modelled as `Nat` ticks. -/

/-- Row of `claimants` (`SQLClaimant`): the columns the embedded code reads. -/
structure Claimant where
  id : Nat
  name : PyStr
  email : PyStr
  phone_number : Option PyStr
  notes : Option PyStr
  target_location : Option PyStr
  search_keywords : Option PyStr
  deriving DecidableEq

/-- Row of `claimant_documents` (`SQLClaimantDocument`). -/
structure ClaimantDocRow where
  id : Nat
  claimant_id : Nat
  document_type : PyStr
  file_path : Option PyStr
  raw_text_content : Option PyStr
  uploaded_at : Nat
  deriving DecidableEq

/-- Row of `job_postings` (`SQLJobPosting`). -/
structure JobPosting where
  id : Nat
  title : PyStr
  company_name : Option PyStr
  location : Option PyStr
  description : Option PyStr
  job_url : PyStr
  source_website : Option PyStr
  date_scraped : Nat
  date_posted : Option Nat
  is_active : Bool
  deriving DecidableEq

/-- Row of `matched_jobs` (`SQLMatchedJob`).  `match_score` is stored by the
code as `float(score)` for a keyword count `score : Nat`; the count is exact in
the float, so it is modelled as the `Nat` itself. -/
structure MatchedJob where
  id : Nat
  claimant_id : Nat
  job_posting_id : Nat
  match_score : Nat
  status : PyStr
  match_date : Nat
  notes_for_advisor : PyStr
  deriving DecidableEq

/-- Pydantic `MatchedJobCreate`. -/
structure MatchedJobCreate where
  claimant_id : Nat
  job_posting_id : Nat
  match_score : Nat
  status : PyStr
  notes_for_advisor : PyStr
  deriving DecidableEq

/-- The `claimants` table. -/
structure ClaimantStore where
  rows : List Claimant
  deriving DecidableEq

/-- The `claimant_documents` table. -/
structure DocStore where
  rows : List ClaimantDocRow
  nextId : Nat
  deriving DecidableEq

/-- The `job_postings` table. -/
structure JobStore where
  rows : List JobPosting
  nextId : Nat
  deriving DecidableEq

/-- The `matched_jobs` table. -/
structure MatchStore where
  rows : List MatchedJob
  nextId : Nat
  deriving DecidableEq

/-- Truthiness of an `Optional[str]` (`None` and `""` are falsy). -/
def optTruthy : Option PyStr → Bool
  | none => false
  | some s => !s.isEmpty

/-- Python `x or ""` on an `Optional[str]`. -/
def optStr (o : Option PyStr) : PyStr := o.getD []

/-! ### CRUD: claimants (`app/db/crud_claimant.py`) -/

/-- `get_claimant`: first row with the given id. -/
def get_claimant (cs : ClaimantStore) (claimant_id : Nat) : Option Claimant :=
  cs.rows.find? (fun c => c.id == claimant_id)

/-- `add_claimant_document`: unconditionally inserts a document row. -/
def add_claimant_document (ds : DocStore) (claimant_id : Nat) (document_type : PyStr)
    (file_path : Option PyStr) (raw_text : Option PyStr) (now : Nat) :
    ClaimantDocRow × DocStore :=
  let row : ClaimantDocRow :=
    { id := ds.nextId, claimant_id := claimant_id, document_type := document_type,
      file_path := file_path, raw_text_content := raw_text, uploaded_at := now }
  (row, { rows := ds.rows ++ [row], nextId := ds.nextId + 1 })

/-- `upload_claimant_document` (`app/api/endpoints/claimants.py`): checks that
the claimant exists (404 "Claimant not found for document upload" otherwise)
and then calls `add_claimant_document`.  File reading and text extraction are
outside the model; the extracted text arrives as `raw_text`. -/
def upload_claimant_document (cs : ClaimantStore) (ds : DocStore) (claimant_id : Nat)
    (document_type : PyStr) (file_path : Option PyStr) (raw_text : Option PyStr)
    (now : Nat) : Except PyStr ClaimantDocRow × DocStore :=
  match get_claimant cs claimant_id with
  | none => (Except.error (pystr ("Claimant not found for document upload")), ds)
  | some _ =>
    let r := add_claimant_document ds claimant_id document_type file_path raw_text now
    (Except.ok r.1, r.2)

/-! ### CRUD: job postings (`app/db/crud_jobs.py`) -/

/-- The `job_data` dict handed to `create_job_posting` (keys read via `.get`). -/
structure JobCreateData where
  title : PyStr
  company_name : Option PyStr
  location : Option PyStr
  description_snippet : Option PyStr
  job_url : PyStr
  source_website : Option PyStr
  date_posted : Option Nat
  deriving DecidableEq

/-- `get_job_posting_by_url`: first row with the given URL. -/
def get_job_posting_by_url (s : JobStore) (job_url : PyStr) : Option JobPosting :=
  s.rows.find? (fun r => r.job_url == job_url)

/-- `create_job_posting`: look up by URL; if present return `(existing, false)`
and change nothing, otherwise insert a row (with `date_scraped := now`,
`is_active` defaulted `true`) and return it with `true`. -/
def create_job_posting (s : JobStore) (jd : JobCreateData) (now : Nat) :
    (JobPosting × Bool) × JobStore :=
  match get_job_posting_by_url s jd.job_url with
  | some existing => ((existing, false), s)
  | none =>
    let row : JobPosting :=
      { id := s.nextId, title := jd.title, company_name := jd.company_name,
        location := jd.location, description := jd.description_snippet,
        job_url := jd.job_url, source_website := jd.source_website,
        date_scraped := now, date_posted := jd.date_posted, is_active := true }
    ((row, true), { rows := s.rows ++ [row], nextId := s.nextId + 1 })

/-- `get_job_postings`: `offset(skip).limit(limit)`. -/
def get_job_postings (s : JobStore) (skip limit : Nat) : List JobPosting :=
  (s.rows.drop skip).take limit

/-! ### CRUD: matched jobs (`app/db/crud_matched_jobs.py`) -/

/-- The row predicate for the (claimant, job posting) pair. -/
def pairMatches (claimant_id job_posting_id : Nat) (r : MatchedJob) : Bool :=
  r.claimant_id == claimant_id && r.job_posting_id == job_posting_id

/-- `get_matched_job_by_claimant_and_job_posting`. -/
def get_matched_job_by_claimant_and_job_posting (s : MatchStore)
    (claimant_id job_posting_id : Nat) : Option MatchedJob :=
  s.rows.find? (pairMatches claimant_id job_posting_id)

/-- The in-place field update performed on an existing `SQLMatchedJob`. -/
def applyMatchUpdate (m : MatchedJobCreate) (now : Nat) (r : MatchedJob) : MatchedJob :=
  { r with
      match_score := m.match_score, status := m.status,
      notes_for_advisor := m.notes_for_advisor, match_date := now }

/-- Replace the first row satisfying `p` (the row SQLAlchemy's `first()` found). -/
def replaceFirst (p : MatchedJob → Bool) (f : MatchedJob → MatchedJob) :
    List MatchedJob → List MatchedJob
  | [] => []
  | r :: rs => if p r then f r :: rs else r :: replaceFirst p f rs

/-- `create_matched_job`: upsert keyed on (claimant_id, job_posting_id).  If a
row for the pair exists, overwrite its score/status/notes and refresh
`match_date`; otherwise insert a new row (`match_date` defaulted to now). -/
def create_matched_job (s : MatchStore) (m : MatchedJobCreate) (now : Nat) :
    MatchedJob × MatchStore :=
  match get_matched_job_by_claimant_and_job_posting s m.claimant_id m.job_posting_id with
  | some existing =>
    (applyMatchUpdate m now existing,
     { s with
         rows := replaceFirst (pairMatches m.claimant_id m.job_posting_id)
                   (applyMatchUpdate m now) s.rows })
  | none =>
    let row : MatchedJob :=
      { id := s.nextId, claimant_id := m.claimant_id, job_posting_id := m.job_posting_id,
        match_score := m.match_score, status := m.status, match_date := now,
        notes_for_advisor := m.notes_for_advisor }
    (row, { rows := s.rows ++ [row], nextId := s.nextId + 1 })

/-! ### Matching engine (`app/services/ai_matcher.py`, `match_jobs_for_claimant`) -/

/-- The ORM relationship `claimant.documents`: document rows with this
claimant's id, in insertion order. -/
def claimantDocuments (ds : DocStore) (c : Claimant) : List ClaimantDocRow :=
  ds.rows.filter (fun d => d.claimant_id == c.id)

/-- Loop condition
`doc.document_type and doc.document_type.lower() == 'cv' and doc.raw_text_content`. -/
def isCvDocumentWithText (d : ClaimantDocRow) : Bool :=
  !d.document_type.isEmpty
    && (d.document_type.map pyLower == pystr ("cv"))
    && optTruthy d.raw_text_content

/-- CV text aggregation: concatenate `" " + raw_text_content` over the CV
documents, then `strip()`. -/
def aggregateCvText (docs : List ClaimantDocRow) : PyStr :=
  pyStrip (docs.foldl
    (fun acc d => if isCvDocumentWithText d then acc ++ 32 :: optStr d.raw_text_content else acc)
    [])

/-- `cv_keywords`: extracted from the aggregated CV text when it is non-empty. -/
def cvKeywords (ds : DocStore) (c : Claimant) : List PyStr :=
  let cv_text := aggregateCvText (claimantDocuments ds c)
  if cv_text.isEmpty then [] else extract_keywords_from_text cv_text

/-- `set([kw.strip().lower() for kw in s.split(',') if kw.strip()])`. -/
def explicitKeywordSet (s : PyStr) : List PyStr :=
  (((splitOnComma s).filter (fun kw => !(pyStrip kw).isEmpty)).map
    (fun kw => (pyStrip kw).map pyLower)).dedup

/-- `explicit_keyword_set`, guarded by the truthiness of `search_keywords`. -/
def claimantExplicitKeywords (c : Claimant) : List PyStr :=
  if optTruthy c.search_keywords then explicitKeywordSet (optStr c.search_keywords)
  else []

/-- `final_claimant_keywords = cv_keywords.union(explicit_keyword_set)`. -/
def finalClaimantKeywords (ds : DocStore) (c : Claimant) : List PyStr :=
  pySetUnion (cvKeywords ds c) (claimantExplicitKeywords c)

/-- `(job.title + " " + (job.description or "")).lower()`. -/
def jobMatchText (job : JobPosting) : PyStr :=
  (job.title ++ 32 :: optStr job.description).map pyLower

/-- The location filter: a job passes unless the claimant has a truthy
`target_location` that is not a case-insensitive substring of the job's
location (`None` read as `""`). -/
def locationPasses (targetLoc : Option PyStr) (job : JobPosting) : Bool :=
  if optTruthy targetLoc then
    strIn ((optStr targetLoc).map pyLower) ((optStr job.location).map pyLower)
  else true

/-- One iteration of the matching loop: skip inactive jobs and location
mismatches; otherwise score by keyword intersection and, when the score
reaches `MIN_MATCH_SCORE = 2`, upsert a match record and collect the persisted
row. -/
def matchStep (finalKw : List PyStr) (targetLoc : Option PyStr) (claimant_id now : Nat)
    (st : List MatchedJob × MatchStore) (job : JobPosting) :
    List MatchedJob × MatchStore :=
  if !job.is_active then st
  else if !locationPasses targetLoc job then st
  else
    let job_keywords := extract_keywords_from_text (jobMatchText job)
    let common_keywords := pySetInter finalKw job_keywords
    let score := common_keywords.length
    if 2 ≤ score then
      let notes0 := pystr ("Automatic match. Score: ") ++ pystr (Nat.repr score)
        ++ pystr (". Common keywords: ") ++ joinCommaSpace (common_keywords.take 5)
        ++ pystr ("...")
      let notes := if optTruthy targetLoc then
          notes0 ++ pystr (" Location matched: \x27") ++ optStr targetLoc ++ pystr ("\x27.")
        else notes0
      let match_data : MatchedJobCreate :=
        { claimant_id := claimant_id, job_posting_id := job.id, match_score := score,
          status := pystr ("new"), notes_for_advisor := notes }
      let res := create_matched_job st.2 match_data now
      (st.1 ++ [res.1], res.2)
    else st

/-- `match_jobs_for_claimant`: load the claimant (absent ⇒ `[]`), build the
final keyword set (empty ⇒ `[]`), then fold the matching loop over the fetched
job postings, returning the collected rows and the final match store. -/
def match_jobs_for_claimant (cs : ClaimantStore) (ds : DocStore) (js : JobStore)
    (ms : MatchStore) (claimant_id now : Nat) : List MatchedJob × MatchStore :=
  match get_claimant cs claimant_id with
  | none => ([], ms)
  | some claimant =>
    let final_claimant_keywords := finalClaimantKeywords ds claimant
    if final_claimant_keywords.isEmpty then ([], ms)
    else
      let all_jobs := get_job_postings js 0 10000
      all_jobs.foldl (matchStep final_claimant_keywords claimant.target_location claimant_id now)
        ([], ms)

/-- Uniqueness invariant of the `matched_jobs` table: at most one row per
(claimant_id, job_posting_id) pair. -/
def atMostOnePerPair (s : MatchStore) : Prop :=
  ∀ cid jid : Nat, s.rows.countP (pairMatches cid jid) ≤ 1

/-- A sequence of upserts, each with its own timestamp. -/
def runUpserts (s : MatchStore) (ops : List (MatchedJobCreate × Nat)) : MatchStore :=
  ops.foldl (fun st op => (create_matched_job st op.1 op.2).2) s

/-! ### Helper lemmas -/

theorem pyLower_idem (n : Nat) : pyLower (pyLower n) = pyLower n := by
  unfold pyLower
  split_ifs <;> omega

/-- Words produced by `splitWSAux` contain no whitespace, given that the
accumulator contains none. -/
theorem splitWSAux_no_space (l : List Nat) :
    ∀ acc, (∀ c ∈ acc, isSpaceN c = false) →
      ∀ w ∈ splitWSAux l acc, ∀ c ∈ w, isSpaceN c = false := by
  induction l with
  | nil =>
    intro acc hacc w hw c hc
    unfold splitWSAux at hw
    split at hw
    · simp at hw
    · simp only [List.mem_singleton] at hw
      subst hw
      exact hacc c (List.mem_reverse.mp hc)
  | cons a t ih =>
    intro acc hacc w hw c hc
    unfold splitWSAux at hw
    by_cases hs : isSpaceN a
    · rw [if_pos hs] at hw
      split at hw
      · exact ih [] (by simp) w hw c hc
      · rcases List.mem_cons.mp hw with h | h
        · subst h
          exact hacc c (List.mem_reverse.mp hc)
        · exact ih [] (by simp) w h c hc
    · rw [if_neg hs] at hw
      refine ih (a :: acc) ?_ w hw c hc
      intro d hd
      rcases List.mem_cons.mp hd with h | h
      · subst h
        exact Bool.eq_false_iff.mpr hs
      · exact hacc d h

/-- Words produced by `splitWS` contain no whitespace. -/
theorem splitWS_no_space (s : PyStr) (w : PyStr) (hw : w ∈ splitWS s) :
    ∀ c ∈ w, isSpaceN c = false :=
  splitWSAux_no_space s [] (by simp) w hw

/-- Membership characterization of `extract_keywords_from_text`. -/
theorem mem_extract_keywords {text w : PyStr} :
    w ∈ extract_keywords_from_text text ↔
      (w ∈ splitWS ((text.map pyLower).map (fun c => if isPunct c then 32 else c))
        ∧ w ∉ DEFAULT_STOP_WORDS ∧ 3 ≤ w.length) := by
  unfold extract_keywords_from_text
  cases text with
  | nil => simp [splitWS, splitWSAux]
  | cons a t =>
    simp only [List.isEmpty_cons, if_neg Bool.false_ne_true]
    rw [List.mem_dedup, List.mem_filter]
    simp [and_assoc]

theorem extract_keywords_nodup (text : PyStr) :
    (extract_keywords_from_text text).Nodup := by
  unfold extract_keywords_from_text
  split
  · exact List.nodup_nil
  · exact List.nodup_dedup _

/-- `toFinset` ignores `dedup` (list version). -/
theorem list_toFinset_dedup {α : Type} [DecidableEq α] (l : List α) :
    l.dedup.toFinset = l.toFinset := by
  apply Finset.ext
  intro a
  simp [List.mem_toFinset, List.mem_dedup]

/-- Length of the modelled set intersection, as a `Finset` cardinality. -/
theorem length_pySetInter_dedup (L b : List PyStr) :
    (pySetInter L.dedup b).length = (L.toFinset ∩ b.toFinset).card := by
  have hnd : (L.dedup.filter (fun w => decide (w ∈ b))).Nodup :=
    (List.nodup_dedup L).filter _
  unfold pySetInter
  rw [← List.toFinset_card_of_nodup hnd, List.toFinset_filter, list_toFinset_dedup]
  congr 1
  rw [Finset.filter_congr (q := fun w => w ∈ b.toFinset) (fun x _ => by simp)]
  exact Finset.filter_mem_eq_inter

/-- `toFinset` of the modelled set union. -/
theorem toFinset_pySetUnion (a b : List PyStr) :
    (pySetUnion a b).toFinset = a.toFinset ∪ b.toFinset := by
  unfold pySetUnion
  rw [list_toFinset_dedup, List.toFinset_append]

/-! ### Match store lemmas -/

theorem replaceFirst_length (p : MatchedJob → Bool) (f : MatchedJob → MatchedJob) :
    ∀ l : List MatchedJob, (replaceFirst p f l).length = l.length := by
  intro l
  induction l with
  | nil => rfl
  | cons r rs ih =>
    unfold replaceFirst
    split
    · simp
    · simp [ih]

theorem countP_replaceFirst (q p : MatchedJob → Bool) (f : MatchedJob → MatchedJob)
    (hf : ∀ r, q (f r) = q r) :
    ∀ l : List MatchedJob, (replaceFirst p f l).countP q = l.countP q := by
  intro l
  induction l with
  | nil => rfl
  | cons r rs ih =>
    unfold replaceFirst
    split
    · simp [List.countP_cons, hf]
    · simp [List.countP_cons, ih]

theorem pairMatches_applyMatchUpdate (cid jid : Nat) (m : MatchedJobCreate) (now : Nat)
    (r : MatchedJob) : pairMatches cid jid (applyMatchUpdate m now r) = pairMatches cid jid r :=
  rfl

/-- One upsert preserves the uniqueness invariant. -/
theorem create_matched_job_preserves (s : MatchStore) (m : MatchedJobCreate) (now : Nat)
    (h : atMostOnePerPair s) : atMostOnePerPair (create_matched_job s m now).2 := by
  intro cid jid
  unfold create_matched_job
  cases hfind : get_matched_job_by_claimant_and_job_posting s m.claimant_id m.job_posting_id with
  | some existing =>
    simpa [countP_replaceFirst (pairMatches cid jid) _ _
      (pairMatches_applyMatchUpdate cid jid m now)] using h cid jid
  | none =>
    simp only
    rw [List.countP_append]
    by_cases hq : pairMatches cid jid
        { id := s.nextId, claimant_id := m.claimant_id, job_posting_id := m.job_posting_id,
          match_score := m.match_score, status := m.status, match_date := now,
          notes_for_advisor := m.notes_for_advisor }
    · have hpair : cid = m.claimant_id ∧ jid = m.job_posting_id := by
        unfold pairMatches at hq
        simp only [Bool.and_eq_true, beq_iff_eq] at hq
        exact ⟨hq.1.symm, hq.2.symm⟩
      have hzero : s.rows.countP (pairMatches cid jid) = 0 := by
        rw [List.countP_eq_zero]
        intro r hr
        rcases hpair with ⟨h1, h2⟩
        subst h1; subst h2
        have := List.find?_eq_none.mp hfind r hr
        simpa using this
      simp [hzero, hq]
    · simp only [List.countP_singleton, if_neg hq]
      simpa using h cid jid

theorem runUpserts_preserves (ops : List (MatchedJobCreate × Nat)) :
    ∀ s : MatchStore, atMostOnePerPair s → atMostOnePerPair (runUpserts s ops) := by
  induction ops with
  | nil => intro s h; exact h
  | cons op rest ih =>
    intro s h
    exact ih _ (create_matched_job_preserves s op.1 op.2 h)

/-! ### Matching loop lemmas -/

/-- One loop iteration only appends to the collected list, and the store
evolution does not depend on what was already collected. -/
theorem matchStep_decomp (f : List PyStr) (tl : Option PyStr) (cid now : Nat)
    (acc : List MatchedJob) (ms : MatchStore) (job : JobPosting) :
    matchStep f tl cid now (acc, ms) job
      = (acc ++ (matchStep f tl cid now ([], ms) job).1,
         (matchStep f tl cid now ([], ms) job).2) := by
  unfold matchStep
  split_ifs <;> simp <;> split <;> simp

/-- The fold of the matching loop collects rows in iteration order after
whatever was already collected. -/
theorem foldl_matchStep_decomp (f : List PyStr) (tl : Option PyStr) (cid now : Nat)
    (jobs : List JobPosting) :
    ∀ (acc : List MatchedJob) (ms : MatchStore),
      jobs.foldl (matchStep f tl cid now) (acc, ms)
        = (acc ++ (jobs.foldl (matchStep f tl cid now) ([], ms)).1,
           (jobs.foldl (matchStep f tl cid now) ([], ms)).2) := by
  induction jobs with
  | nil => intro acc ms; simp
  | cons j js ih =>
    intro acc ms
    simp only [List.foldl_cons]
    rcases hd : matchStep f tl cid now ([], ms) j with ⟨d, ms1⟩
    rw [matchStep_decomp f tl cid now acc ms j, hd]
    simp only
    rw [ih (acc ++ d) ms1, ih d ms1]
    simp

/-! ### Claims -/

/-- C2: for every input text, `extract_keywords_from_text` returns exactly the
set of tokens obtained by lowercasing the text, replacing every punctuation
character with whitespace, splitting on whitespace, then discarding tokens
shorter than 3 characters and tokens in the fixed stop-word set; the result is
a set (no duplicates), and empty input yields the empty set rather than an
error. -/
theorem C2_extract_keywords_exact (text : PyStr) :
    (∀ w : PyStr, w ∈ extract_keywords_from_text text ↔
      (w ∈ splitWS ((text.map pyLower).map (fun c => if isPunct c then 32 else c))
        ∧ 3 ≤ w.length ∧ w ∉ DEFAULT_STOP_WORDS))
    ∧ (extract_keywords_from_text text).Nodup
    ∧ extract_keywords_from_text [] = [] := by
  refine ⟨fun w => ?_, extract_keywords_nodup text, rfl⟩
  rw [mem_extract_keywords]
  tauto

/-- C9: `extract_keywords_from_text` is invariant under case and punctuation
differences that preserve word boundaries: the concrete pair
`"Python-Developer!"` / `"python developer"` extracts equal keyword sets, and
for every text the extraction agrees with the extraction of the lowercased
text. -/
theorem C9_case_punct_invariance :
    extract_keywords_from_text (pystr ("Python-Developer!"))
        = extract_keywords_from_text (pystr ("python developer"))
    ∧ ∀ text : PyStr,
        extract_keywords_from_text text = extract_keywords_from_text (text.map pyLower) := by
  constructor
  · decide
  · intro text
    have hmap : (text.map pyLower).map pyLower = text.map pyLower := by
      rw [List.map_map]
      exact List.map_congr_left (fun a _ => pyLower_idem a)
    have hemp : (text.map pyLower).isEmpty = text.isEmpty := by
      cases text <;> rfl
    unfold extract_keywords_from_text
    rw [hmap, hemp]

/-- C6: a claimant id that does not resolve to a stored claimant makes
`match_jobs_for_claimant` return an empty list (and leave the match store
unchanged) rather than raising an error. -/
theorem C6_missing_claimant_empty (cs : ClaimantStore) (ds : DocStore) (js : JobStore)
    (ms : MatchStore) (claimant_id now : Nat)
    (h : get_claimant cs claimant_id = none) :
    match_jobs_for_claimant cs ds js ms claimant_id now = ([], ms) := by
  unfold match_jobs_for_claimant
  rw [h]

theorem C6_missing_claimant_empty_witness :
    get_claimant ⟨[]⟩ 1 = none
    ∧ match_jobs_for_claimant ⟨[]⟩ ⟨[], 1⟩ ⟨[], 1⟩ ⟨[], 1⟩ 1 0 = ([], ⟨[], 1⟩) :=
  ⟨rfl, C6_missing_claimant_empty ⟨[]⟩ ⟨[], 1⟩ ⟨[], 1⟩ ⟨[], 1⟩ 1 0 rfl⟩

/-- C7: an existing claimant whose final keyword set (CV keywords united with
explicit keywords) is empty makes `match_jobs_for_claimant` return the empty
list immediately with the match store unchanged (zero writes). -/
theorem C7_no_keywords_no_writes (cs : ClaimantStore) (ds : DocStore) (js : JobStore)
    (ms : MatchStore) (claimant_id now : Nat) (c : Claimant)
    (hc : get_claimant cs claimant_id = some c)
    (hk : finalClaimantKeywords ds c = []) :
    match_jobs_for_claimant cs ds js ms claimant_id now = ([], ms) := by
  unfold match_jobs_for_claimant
  rw [hc]
  simp [hk]

theorem C7_no_keywords_no_writes_witness :
    get_claimant ⟨[⟨1, pystr ("Ann"), pystr ("a@b.c"), none, none, none, none⟩]⟩ 1
        = some ⟨1, pystr ("Ann"), pystr ("a@b.c"), none, none, none, none⟩
    ∧ finalClaimantKeywords ⟨[], 1⟩ ⟨1, pystr ("Ann"), pystr ("a@b.c"), none, none, none, none⟩ = []
    ∧ match_jobs_for_claimant ⟨[⟨1, pystr ("Ann"), pystr ("a@b.c"), none, none, none, none⟩]⟩
        ⟨[], 1⟩ ⟨[], 1⟩ ⟨[], 1⟩ 1 0 = ([], ⟨[], 1⟩) :=
  ⟨by decide, by decide,
    C7_no_keywords_no_writes ⟨[⟨1, pystr ("Ann"), pystr ("a@b.c"), none, none, none, none⟩]⟩
      ⟨[], 1⟩ ⟨[], 1⟩ ⟨[], 1⟩ 1 0 ⟨1, pystr ("Ann"), pystr ("a@b.c"), none, none, none, none⟩
      (by decide) (by decide)⟩

/-- C8: uploading a document for a claimant id that does not resolve fails by
signaling "claimant not found" and creates no document record (the document
table is unchanged). -/
theorem C8_add_document_claimant_not_found (cs : ClaimantStore) (ds : DocStore)
    (claimant_id : Nat) (document_type : PyStr) (file_path raw_text : Option PyStr) (now : Nat)
    (h : get_claimant cs claimant_id = none) :
    (upload_claimant_document cs ds claimant_id document_type file_path raw_text now).1
        = Except.error (pystr ("Claimant not found for document upload"))
    ∧ (upload_claimant_document cs ds claimant_id document_type file_path raw_text now).2 = ds := by
  unfold upload_claimant_document
  rw [h]
  exact ⟨rfl, rfl⟩

theorem C8_add_document_claimant_not_found_witness :
    get_claimant ⟨[]⟩ 3 = none
    ∧ (upload_claimant_document ⟨[]⟩ ⟨[], 1⟩ 3 (pystr ("cv")) none none 0).1
        = Except.error (pystr ("Claimant not found for document upload"))
    ∧ (upload_claimant_document ⟨[]⟩ ⟨[], 1⟩ 3 (pystr ("cv")) none none 0).2 = ⟨[], 1⟩ := by
  refine ⟨rfl, ?_⟩
  exact C8_add_document_claimant_not_found ⟨[]⟩ ⟨[], 1⟩ 3 (pystr ("cv")) none none 0 rfl

/-- C5: `create_job_posting` looks up by `job_url` first: if a posting with
that URL exists it returns the existing record with `was_created = false` and
leaves the store (hence every field of the existing record) unchanged, even
when the new payload differs; otherwise it appends a new record with
`date_scraped = now` and `is_active = true`, carrying the payload fields, and
returns it with `was_created = true`. -/
theorem C5_create_if_absent (s : JobStore) (jd : JobCreateData) (now : Nat) :
    (∀ ex : JobPosting, get_job_posting_by_url s jd.job_url = some ex →
        create_job_posting s jd now = ((ex, false), s))
    ∧ (get_job_posting_by_url s jd.job_url = none →
        (create_job_posting s jd now).1.2 = true
        ∧ (create_job_posting s jd now).1.1.date_scraped = now
        ∧ (create_job_posting s jd now).1.1.is_active = true
        ∧ (create_job_posting s jd now).1.1.title = jd.title
        ∧ (create_job_posting s jd now).1.1.company_name = jd.company_name
        ∧ (create_job_posting s jd now).1.1.location = jd.location
        ∧ (create_job_posting s jd now).1.1.description = jd.description_snippet
        ∧ (create_job_posting s jd now).1.1.job_url = jd.job_url
        ∧ (create_job_posting s jd now).1.1.source_website = jd.source_website
        ∧ (create_job_posting s jd now).1.1.date_posted = jd.date_posted
        ∧ (create_job_posting s jd now).2.rows = s.rows ++ [(create_job_posting s jd now).1.1]
        ∧ (create_job_posting s jd now).2.nextId = s.nextId + 1) := by
  constructor
  · intro ex hex
    unfold create_job_posting
    rw [hex]
  · intro hnone
    unfold create_job_posting
    rw [hnone]
    exact ⟨rfl, rfl, rfl, rfl, rfl, rfl, rfl, rfl, rfl, rfl, rfl, rfl⟩

theorem C5_create_if_absent_witness :
    get_job_posting_by_url ⟨[], 1⟩ (pystr ("u1")) = none
    ∧ (create_job_posting ⟨[], 1⟩
        ⟨pystr ("T"), none, none, none, pystr ("u1"), none, none⟩ 9).1.2 = true
    ∧ (create_job_posting ⟨[], 1⟩
        ⟨pystr ("T"), none, none, none, pystr ("u1"), none, none⟩ 9).1.1.date_scraped = 9
    ∧ (create_job_posting ⟨[], 1⟩
        ⟨pystr ("T"), none, none, none, pystr ("u1"), none, none⟩ 9).1.1.is_active = true := by
  have h := (C5_create_if_absent ⟨[], 1⟩
    ⟨pystr ("T"), none, none, none, pystr ("u1"), none, none⟩ 9).2 rfl
  exact ⟨rfl, h.1, h.2.1, h.2.2.1⟩

/-- C4: in the matching loop, a job is skipped (the collected list and the
match store are left unchanged) whenever its `is_active` flag is false; and
whenever the claimant has a non-empty target location, the job is skipped
unless the job's location case-insensitively contains the target as a
substring, a null or empty job location being non-matching against any
non-empty target location. -/
theorem C4_active_and_location_filters (f : List PyStr) (tl : Option PyStr) (cid now : Nat)
    (st : List MatchedJob × MatchStore) (job : JobPosting) :
    (job.is_active = false → matchStep f tl cid now st job = st)
    ∧ (∀ t : PyStr, tl = some t → t ≠ [] →
        strIn (t.map pyLower) ((optStr job.location).map pyLower) = false →
        matchStep f tl cid now st job = st)
    ∧ (∀ t : PyStr, tl = some t → t ≠ [] →
        (job.location = none ∨ job.location = some []) →
        matchStep f tl cid now st job = st) := by
  have key : ∀ t : PyStr, tl = some t → t ≠ [] →
      strIn (t.map pyLower) ((optStr job.location).map pyLower) = false →
      matchStep f tl cid now st job = st := by
    intro t ht hne hns
    have hloc : locationPasses tl job = false := by
      unfold locationPasses
      subst ht
      have htr : optTruthy (some t) = true := by
        cases t with
        | nil => exact absurd rfl hne
        | cons a t' => rfl
      rw [if_pos htr]
      exact hns
    unfold matchStep
    rw [hloc]
    cases job.is_active <;> rfl
  refine ⟨?_, key, ?_⟩
  · intro h
    unfold matchStep
    rw [h]
    rfl
  · intro t ht hne hempty
    apply key t ht hne
    have hnil : optStr job.location = [] := by
      rcases hempty with h | h <;> simp [optStr, h]
    rw [hnil]
    cases t with
    | nil => exact absurd rfl hne
    | cons a t' => rfl

theorem C4_active_and_location_filters_witness :
    (false = false
      ∧ matchStep [] none 1 0 ([], ⟨[], 1⟩)
          ⟨5, pystr ("T"), none, none, none, pystr ("u"), none, 0, none, false⟩ = ([], ⟨[], 1⟩))
    ∧ (strIn ((pystr ("Leeds")).map pyLower) ((optStr (some (pystr ("York")))).map pyLower) = false
      ∧ matchStep [] (some (pystr ("Leeds"))) 1 0 ([], ⟨[], 1⟩)
          ⟨6, pystr ("T"), none, some (pystr ("York")), none, pystr ("u"), none, 0, none, true⟩
            = ([], ⟨[], 1⟩)) := by
  constructor
  · exact ⟨rfl, (C4_active_and_location_filters [] none 1 0 ([], ⟨[], 1⟩)
      ⟨5, pystr ("T"), none, none, none, pystr ("u"), none, 0, none, false⟩).1 rfl⟩
  · refine ⟨by decide, ?_⟩
    exact (C4_active_and_location_filters [] (some (pystr ("Leeds"))) 1 0 ([], ⟨[], 1⟩)
      ⟨6, pystr ("T"), none, some (pystr ("York")), none, pystr ("u"), none, 0, none, true⟩).2.1
      (pystr ("Leeds")) rfl (by decide) (by decide)

/-- C1: the match-store upsert keeps at most one `MatchedJob` per
(claimant_id, job_posting_id) pair after any sequence of upserts starting from
a store satisfying the invariant; when a record for the pair exists, the
upsert overwrites its score, status and notes, refreshes its match timestamp,
returns the same row (unchanged id and pair, same row count); when none
exists, it appends a new row carrying the payload and a fresh timestamp. -/
theorem C1_upsert_unique_pair (s : MatchStore) (m : MatchedJobCreate) (now : Nat)
    (h : atMostOnePerPair s) :
    atMostOnePerPair (create_matched_job s m now).2
    ∧ (∀ ops : List (MatchedJobCreate × Nat), atMostOnePerPair (runUpserts s ops))
    ∧ (∀ ex : MatchedJob,
        get_matched_job_by_claimant_and_job_posting s m.claimant_id m.job_posting_id = some ex →
        (create_matched_job s m now).1.id = ex.id
        ∧ (create_matched_job s m now).1.claimant_id = ex.claimant_id
        ∧ (create_matched_job s m now).1.job_posting_id = ex.job_posting_id
        ∧ (create_matched_job s m now).1.match_score = m.match_score
        ∧ (create_matched_job s m now).1.status = m.status
        ∧ (create_matched_job s m now).1.notes_for_advisor = m.notes_for_advisor
        ∧ (create_matched_job s m now).1.match_date = now
        ∧ (create_matched_job s m now).2.rows.length = s.rows.length)
    ∧ (get_matched_job_by_claimant_and_job_posting s m.claimant_id m.job_posting_id = none →
        (create_matched_job s m now).2.rows = s.rows ++ [(create_matched_job s m now).1]
        ∧ (create_matched_job s m now).1.claimant_id = m.claimant_id
        ∧ (create_matched_job s m now).1.job_posting_id = m.job_posting_id
        ∧ (create_matched_job s m now).1.match_score = m.match_score
        ∧ (create_matched_job s m now).1.status = m.status
        ∧ (create_matched_job s m now).1.notes_for_advisor = m.notes_for_advisor
        ∧ (create_matched_job s m now).1.match_date = now) := by
  refine ⟨create_matched_job_preserves s m now h,
    fun ops => runUpserts_preserves ops s h, ?_, ?_⟩
  · intro ex hex
    unfold create_matched_job
    rw [hex]
    exact ⟨rfl, rfl, rfl, rfl, rfl, rfl, rfl, replaceFirst_length _ _ _⟩
  · intro hnone
    unfold create_matched_job
    rw [hnone]
    exact ⟨rfl, rfl, rfl, rfl, rfl, rfl, rfl⟩

theorem C1_upsert_unique_pair_witness :
    atMostOnePerPair ⟨[], 1⟩
    ∧ (create_matched_job ⟨[], 1⟩ ⟨4, 9, 3, pystr ("new"), pystr ("n")⟩ 7).2.rows
        = [] ++ [(create_matched_job ⟨[], 1⟩ ⟨4, 9, 3, pystr ("new"), pystr ("n")⟩ 7).1] := by
  have h0 : atMostOnePerPair ⟨[], 1⟩ := by
    intro cid jid
    simp [List.countP_nil]
  exact ⟨h0,
    ((C1_upsert_unique_pair ⟨[], 1⟩ ⟨4, 9, 3, pystr ("new"), pystr ("n")⟩ 7 h0).2.2.2 rfl).1⟩

/-- C10: a claimant's explicit search keyword that contains whitespace (a
multi-word phrase), or is shorter than 3 characters, or is a stop word, can
never be among the job-side extracted keywords, hence never appears among the
common keywords and never increases the match score: the score computed
against a final keyword set extended with such an entry equals the score
computed without it. -/
theorem C10_noise_keywords_never_score (w jobText : PyStr)
    (h : (∃ c ∈ w, isSpaceN c = true) ∨ w.length < 3 ∨ w ∈ DEFAULT_STOP_WORDS) :
    w ∉ extract_keywords_from_text jobText
    ∧ ∀ final : List PyStr,
        (pySetInter (pySetUnion final [w]) (extract_keywords_from_text jobText)).length
          = (pySetInter (pySetUnion final []) (extract_keywords_from_text jobText)).length := by
  have hnotin : w ∉ extract_keywords_from_text jobText := by
    intro hmem
    rw [mem_extract_keywords] at hmem
    obtain ⟨hm1, hm2, hm3⟩ := hmem
    rcases h with ⟨c, hc, hsp⟩ | hlen | hstop
    · have hf := splitWS_no_space _ w hm1 c hc
      rw [hf] at hsp
      exact Bool.false_ne_true hsp
    · omega
    · exact hm2 hstop
  refine ⟨hnotin, fun final => ?_⟩
  unfold pySetUnion
  rw [length_pySetInter_dedup, length_pySetInter_dedup]
  congr 1
  rw [List.toFinset_append, List.toFinset_append]
  apply Finset.ext
  intro x
  simp only [Finset.mem_inter, Finset.mem_union, List.mem_toFinset]
  constructor
  · rintro ⟨hx1, hx2⟩
    refine ⟨?_, hx2⟩
    rcases hx1 with hx | hx
    · exact Or.inl hx
    · rcases List.mem_singleton.mp hx with rfl
      exact absurd hx2 hnotin
  · rintro ⟨hx1, hx2⟩
    rcases hx1 with hx | hx
    · exact ⟨Or.inl hx, hx2⟩
    · exact absurd hx (List.not_mem_nil x)

theorem C10_noise_keywords_never_score_witness :
    ((∃ c ∈ pystr ("data analysis"), isSpaceN c = true)
      ∨ (pystr ("data analysis")).length < 3 ∨ pystr ("data analysis") ∈ DEFAULT_STOP_WORDS)
    ∧ pystr ("data analysis")
        ∉ extract_keywords_from_text (pystr ("Data analysis specialist needed"))
    ∧ (pySetInter (pySetUnion [pystr ("specialist")] [pystr ("data analysis")])
          (extract_keywords_from_text (pystr ("Data analysis specialist needed")))).length
        = (pySetInter (pySetUnion [pystr ("specialist")] [])
          (extract_keywords_from_text (pystr ("Data analysis specialist needed")))).length := by
  have h : (∃ c ∈ pystr ("data analysis"), isSpaceN c = true)
      ∨ (pystr ("data analysis")).length < 3 ∨ pystr ("data analysis") ∈ DEFAULT_STOP_WORDS := by
    decide
  refine ⟨h, ?_, ?_⟩
  · exact (C10_noise_keywords_never_score (pystr ("data analysis"))
      (pystr ("Data analysis specialist needed")) h).1
  · exact (C10_noise_keywords_never_score (pystr ("data analysis"))
      (pystr ("Data analysis specialist needed")) h).2 [pystr ("specialist")]

/-- C3: for a job passing the active and location filters, the score is the
cardinality of the intersection of the claimant's final keyword set with the
keywords extracted from the job's title concatenated with its description; a
match record is upserted exactly when the score reaches 2, with status "new"
and notes listing at most the first 5 common keywords (plus a
location-matched note when the claimant has a truthy target location); the
collected persisted records accumulate in job-iteration order, and
`match_jobs_for_claimant` is exactly this fold over the fetched jobs. -/
theorem C3_score_threshold_notes_order (ds : DocStore) (c : Claimant) (cid now : Nat)
    (st : List MatchedJob × MatchStore) (job : JobPosting)
    (ha : job.is_active = true)
    (hl : locationPasses c.target_location job = true) :
    let final := finalClaimantKeywords ds c
    let jobKw := extract_keywords_from_text (jobMatchText job)
    let common := pySetInter final jobKw
    let score := common.length
    let notes0 := pystr ("Automatic match. Score: ") ++ pystr (Nat.repr score)
        ++ pystr (". Common keywords: ") ++ joinCommaSpace (common.take 5) ++ pystr ("...")
    let notes := if optTruthy c.target_location then
        notes0 ++ pystr (" Location matched: \x27") ++ optStr c.target_location ++ pystr ("\x27.")
      else notes0
    let md : MatchedJobCreate :=
      { claimant_id := cid, job_posting_id := job.id, match_score := score,
        status := pystr ("new"), notes_for_advisor := notes }
    (score = (final.toFinset ∩ jobKw.toFinset).card)
    ∧ (2 ≤ score →
        matchStep final c.target_location cid now st job
          = (st.1 ++ [(create_matched_job st.2 md now).1], (create_matched_job st.2 md now).2))
    ∧ (score < 2 → matchStep final c.target_location cid now st job = st)
    ∧ (common.take 5).length ≤ 5
    ∧ (∀ (jobs : List JobPosting) (acc : List MatchedJob) (ms0 : MatchStore),
        (jobs.foldl (matchStep final c.target_location cid now) (acc, ms0)).1
          = acc ++ (jobs.foldl (matchStep final c.target_location cid now) ([], ms0)).1)
    ∧ (∀ (cs : ClaimantStore) (js : JobStore) (ms0 : MatchStore),
        get_claimant cs cid = some c → final.isEmpty = false →
        match_jobs_for_claimant cs ds js ms0 cid now
          = (get_job_postings js 0 10000).foldl
              (matchStep final c.target_location cid now) ([], ms0)) := by
  intro final jobKw common score notes0 notes md
  refine ⟨?_, ?_, ?_, ?_, ?_, ?_⟩
  · show (pySetInter (finalClaimantKeywords ds c) jobKw).length
        = ((finalClaimantKeywords ds c).toFinset ∩ jobKw.toFinset).card
    rw [show finalClaimantKeywords ds c
          = (cvKeywords ds c ++ claimantExplicitKeywords c).dedup from rfl,
        length_pySetInter_dedup, list_toFinset_dedup]
  · intro hs
    unfold matchStep
    rw [ha, hl]
    simp only [Bool.not_true, Bool.false_eq_true, if_false]
    rw [if_pos hs]
  · intro hs
    unfold matchStep
    rw [ha, hl]
    simp only [Bool.not_true, Bool.false_eq_true, if_false]
    rw [if_neg (Nat.not_le.mpr hs)]
  · rw [List.length_take]
    exact min_le_left _ _
  · intro jobs acc ms0
    rw [foldl_matchStep_decomp final c.target_location cid now jobs acc ms0]
  · intro cs js ms0 hc hne
    unfold match_jobs_for_claimant
    rw [hc]
    simp only [hne, Bool.false_eq_true, if_false]

theorem C3_score_threshold_notes_order_witness :
    (⟨7, pystr ("Senior Python Django developer"), none, some (pystr ("Leeds")), none,
        pystr ("u1"), none, 0, none, true⟩ : JobPosting).is_active = true
    ∧ locationPasses none
        ⟨7, pystr ("Senior Python Django developer"), none, some (pystr ("Leeds")), none,
          pystr ("u1"), none, 0, none, true⟩ = true
    ∧ (pySetInter
        (finalClaimantKeywords ⟨[], 1⟩
          ⟨1, pystr ("Ann"), pystr ("a@b.c"), none, none, none, some (pystr ("Python, Django"))⟩)
        (extract_keywords_from_text (jobMatchText
          ⟨7, pystr ("Senior Python Django developer"), none, some (pystr ("Leeds")), none,
            pystr ("u1"), none, 0, none, true⟩))).length
      = ((finalClaimantKeywords ⟨[], 1⟩
          ⟨1, pystr ("Ann"), pystr ("a@b.c"), none, none, none,
            some (pystr ("Python, Django"))⟩).toFinset
          ∩ (extract_keywords_from_text (jobMatchText
            ⟨7, pystr ("Senior Python Django developer"), none, some (pystr ("Leeds")), none,
              pystr ("u1"), none, 0, none, true⟩)).toFinset).card := by
  refine ⟨rfl, rfl, ?_⟩
  exact (C3_score_threshold_notes_order ⟨[], 1⟩
    ⟨1, pystr ("Ann"), pystr ("a@b.c"), none, none, none, some (pystr ("Python, Django"))⟩
    1 5 ([], ⟨[], 1⟩)
    ⟨7, pystr ("Senior Python Django developer"), none, some (pystr ("Leeds")), none,
      pystr ("u1"), none, 0, none, true⟩ rfl rfl).1
